import Mathlib

/-!
Shallow embedding of the client-side message reconciliation and bot-overlay
logic of `src/hooks/chat/useMessages.tsx` (the Conversation View Model,
Feed Compositor, and — spec-modelled where the source file is absent —
the Reaction Mapper and Bot Feed Generator).

Timestamps are modelled as `Nat`, identifiers as `String`.
-/

/-- A reaction entry stored on a message: `{reactionId, reactorId, type}`. -/
structure Reaction where
  reactionId : String
  reactorId : String
  type : String
deriving DecidableEq

/-- A reaction event delivered by the backend:
`{messageId, reactionId, reactorId/actorId, type}`. -/
structure ReactionEvent where
  messageId : String
  reactionId : String
  reactorId : String
  type : String
deriving DecidableEq

/-- The message shape used by `useMessages.tsx`: fields `id`,
`conversation_id`, `created_by`, `created_at` and `data` are the ones the
hooks read; `reactions` is the reaction collection mutated by the Reaction
Mapper. -/
structure Message where
  id : String
  conversation_id : String
  created_by : String
  created_at : Nat
  data : String
  reactions : List Reaction
deriving DecidableEq

/-- Underscore's `uniq(list, key)`, specialised to `key = ({id}) => id` as in
`useMessages.tsx`: keep an element iff its `id` was not produced by an
earlier element (first occurrence wins). `seen` is the accumulator of ids
already kept. -/
def uniqByAux (seen : List String) : List Message → List Message
  | [] => []
  | m :: rest =>
      if m.id ∈ seen then uniqByAux seen rest
      else m :: uniqByAux (m.id :: seen) rest

/-- `uniq([...], ({id}) => id)` as called in `useMessages.tsx`. -/
def uniqById (ms : List Message) : List Message :=
  uniqByAux [] ms

/-- Conversation View Model state held by `useMessagesWrapped`:
`messages` and `isLoading` are React state, `pageCursor` is a ref. -/
structure ConvState where
  messages : List Message
  pageCursor : Option String
  isLoading : Bool
deriving DecidableEq

/-- State on first mount: `useState<Message[]>([])`, cursor ref `null`,
`useState(false)` for the loading flag. -/
def initialConv : ConvState :=
  { messages := [], pageCursor := none, isLoading := false }

/-- The `useEffect` keyed on `channelName` (lines 89–91): the list resets to
empty when the channel changes. -/
def channelReset (s : ConvState) : ConvState :=
  { s with messages := [] }

/-- The start of the load effect (lines 93–94 and 114): `setIsLoading(true)`
then `pageCursor.current = null` before `initMessages()` runs. -/
def loadStart (s : ConvState) : ConvState :=
  { s with isLoading := true, pageCursor := none }

/-- Resolution of the backward page query inside `initMessages`
(lines 97–112).  `mounted` is the liveness flag: the cleanup sets it false,
and the `if (mounted)` guard skips every state write when it is false.  On
success (`Except.ok next`) the code clears the loading flag, sets the cursor
to `nextMessages.at(-1)?.id ?? null` and merges
`uniq([...nextMessages, ...prevMessages], ({id}) => id)`.  On rejection
(`Except.error`) the `await` throws, so none of the writes after it run and
the state is untouched (in particular the loading flag is NOT cleared: the
async function has no catch). -/
def applyQueryResult (mounted : Bool) (result : Except Unit (List Message))
    (s : ConvState) : ConvState :=
  if mounted then
    match result with
    | Except.ok next =>
        { s with
          isLoading := false
          pageCursor := next.getLast?.map Message.id
          messages := uniqById (next ++ s.messages) }
    | Except.error _ => s
  else s

/-- `handleAdd` (lines 122–126): append then dedup by id. -/
def handleAdd (message : Message) (prev : List Message) : List Message :=
  uniqById (prev ++ [message])

/-- `handleUpdate` (lines 128–134): map each entry to itself unless its id
matches the updated payload, in which case the payload replaces it. -/
def handleUpdate (updated : Message) (prev : List Message) : List Message :=
  prev.map (fun message => if message.id ≠ updated.id then message else updated)

/-- `handleDelete` (lines 136–140): filter out the matching id. -/
def handleDelete (message : Message) (prev : List Message) : List Message :=
  prev.filter (fun x => x.id ≠ message.id)

/-- Modelled from the spec: `mapFromUpdate` lives in `src/lib/reaction`
(`@/lib/reaction`), which is not among the source files; §4.2 of the spec
describes it: on a `created` event, if `message.id == event.messageId`, add
`{reactorId, reactionId, type}` to the message's reaction collection unless
an entry with the same `reactionId` already exists; otherwise return the
message unchanged. -/
def mapFromUpdate (message : Message) (reaction : ReactionEvent) : Message :=
  if message.id = reaction.messageId then
    if message.reactions.any (fun r => r.reactionId == reaction.reactionId) then
      message
    else
      { message with
        reactions :=
          message.reactions ++
            [⟨reaction.reactionId, reaction.reactorId, reaction.type⟩] }
  else message

/-- `handleReactionAdd` (lines 142–149): map `mapFromUpdate` over the whole
list. -/
def handleReactionAdd (reaction : ReactionEvent) (prev : List Message) :
    List Message :=
  prev.map (fun message => mapFromUpdate message reaction)

/-- The fields of `botConfig` (`@/config/bots`, not among the source files)
that `useMessages` reads: `usernamePrefix` and `channelName`. -/
structure BotConfig where
  usernamePrefix : String
  channelName : String
deriving DecidableEq

/-- One entry of the bot script: an offset from the anchor timestamp, an
author and a body (spec §4.3, "Bot Script Entry"). -/
structure BotScriptEntry where
  offset : Nat
  author : String
  body : String
deriving DecidableEq

/-- Modelled from the spec: the Bot Feed Generator (`useBots`, in
`src/hooks/chat/useBots.tsx`, not among the source files).  Spec §4.3: with
no anchor it must not emit; with anchor `a` it reveals exactly the script
entries whose `a + offset` has elapsed by `now`, as messages authored on the
bot channel with `created_at = a + offset`.  (The id scheme of synthetic
messages is not fixed by the spec; any per-entry identifier works here.) -/
def botFeed (cfg : BotConfig) (script : List BotScriptEntry)
    (anchor : Option Nat) (now : Nat) : List Message :=
  match anchor with
  | none => []
  | some a =>
      (script.filter (fun e => a + e.offset ≤ now)).map
        (fun e =>
          { id := e.author ++ "-" ++ toString e.offset
            conversation_id := cfg.channelName
            created_by := e.author
            created_at := a + e.offset
            data := e.body
            reactions := [] })

/-- The anchor `useMessages` hands to `useBots` (line 220):
`userConversation?.messages?.[0]?.created_at` — the `created_at` of the
FIRST element of the exposed list, or undefined when the list is empty. -/
def botAnchor (ms : List Message) : Option Nat :=
  ms.head?.map Message.created_at

/-- The Feed Compositor's `messages` memo (lines 224–231):
`uniq(userMessages.concat(withBots ? botMessages : []), ({id}) => id)`.
`withBots` models the `WITH_BOTS` environment toggle. -/
def mergedMessages (withBots : Bool) (userMessages : List Message)
    (botMessages : List Message) : List Message :=
  uniqById (userMessages ++ (if withBots then botMessages else []))

/-- Where a compositor action is forwarded. -/
inductive Route where
  | bot : Route
  | user : Route
deriving DecidableEq

/-- JavaScript's `String.prototype.startsWith(pre)`: the receiver's
characters begin with `pre`'s characters. -/
def strStartsWith (s pre : String) : Bool :=
  pre.data.isPrefixOf s.data

/-- The compositor's `addReaction` (lines 233–246): look the target up in the
merged feed; if bots are enabled and the target's `created_by` starts with
`botConfig.usernamePrefix`, route to the bot conversation, else to the real
one.  A missing target (`find` returns undefined) makes the condition falsy,
so it routes to the real one. -/
def addReactionRoute (withBots : Bool) (cfg : BotConfig)
    (messages : List Message) (messageId : String) : Route :=
  match messages.find? (fun m => m.id == messageId) with
  | some message =>
      if withBots && strStartsWith message.created_by cfg.usernamePrefix then
        Route.bot
      else Route.user
  | none => Route.user

/-- The compositor's `removeReaction` (lines 248–258): same lookup, but the
provenance test is `message?.conversation_id === botConfig.channelName` —
channel equality, not the author prefix used by `addReaction`. -/
def removeReactionRoute (withBots : Bool) (cfg : BotConfig)
    (messages : List Message) (messageId : String) : Route :=
  match messages.find? (fun m => m.id == messageId) with
  | some message =>
      if withBots && (message.conversation_id == cfg.channelName) then
        Route.bot
      else Route.user
  | none => Route.user

/-- Sample real message used as a concrete input. -/
def msgReal : Message :=
  { id := "m1", conversation_id := "general", created_by := "alice"
    created_at := 1, data := "hi", reactions := [] }

/-- Sample synthetic message sharing `msgReal`'s id (an id collision between
the real and the bot feed). -/
def msgSynth : Message :=
  { id := "m1", conversation_id := "bots-channel", created_by := "bot-ann"
    created_at := 5, data := "synthetic hello", reactions := [] }

/-- Sample bot message whose author carries the bot prefix but which lives on
a non-bot channel. -/
def msgBotAuthored : Message :=
  { id := "b1", conversation_id := "general", created_by := "bot-ann"
    created_at := 3, data := "beep", reactions := [] }

/-- Sample older real message (earliest `created_at`). -/
def msgOld : Message :=
  { id := "m1", conversation_id := "general", created_by := "alice"
    created_at := 1, data := "hi", reactions := [] }

/-- Sample newer real message; a backwards (newest-first) page delivers it
before `msgOld`. -/
def msgNew : Message :=
  { id := "m2", conversation_id := "general", created_by := "bob"
    created_at := 2, data := "yo", reactions := [] }

/-- Sample bot configuration. -/
def botCfgSample : BotConfig :=
  { usernamePrefix := "bot-", channelName := "bots-channel" }

/-- Sample reaction-created event targeting `msgReal`. -/
def evSample : ReactionEvent :=
  { messageId := "m1", reactionId := "r1", reactorId := "u2", type := "emoji" }

/-- `msgReal` after `evSample` has been applied once. -/
def msgWithReaction : Message :=
  { id := "m1", conversation_id := "general", created_by := "alice"
    created_at := 1, data := "hi"
    reactions := [{ reactionId := "r1", reactorId := "u2", type := "emoji" }] }

/-- Pages appear in non-increasing `created_at` order, i.e. newest first —
the delivery order of the backend's `direction: "backwards"` query. -/
def newestFirst (ms : List Message) : Prop :=
  ms.Pairwise (fun a b => b.created_at ≤ a.created_at)

instance : DecidablePred newestFirst := fun ms =>
  List.instDecidablePairwise ms

/-- Messages appear in non-decreasing `created_at` order (chronological
display order, the order the claim of §8 asks for). -/
def chronological (ms : List Message) : Prop :=
  ms.Pairwise (fun a b => a.created_at ≤ b.created_at)

instance : DecidablePred chronological := fun ms =>
  List.instDecidablePairwise ms

theorem uniqByAux_sublist (l : List Message) :
    ∀ seen, (uniqByAux seen l).Sublist l := by
  induction l with
  | nil => intro seen; simp [uniqByAux]
  | cons m rest ih =>
      intro seen
      by_cases h : m.id ∈ seen
      · simpa [uniqByAux, h] using ((ih seen).trans (List.sublist_cons_self m rest))
      · simpa [uniqByAux, h] using (ih (m.id :: seen)).cons₂ m

theorem mem_of_mem_uniqByAux {l : List Message} {seen : List String}
    {m : Message} (h : m ∈ uniqByAux seen l) : m ∈ l :=
  (uniqByAux_sublist l seen).mem h

/-- The ids surviving `uniqByAux` are exactly the ids of the input that are
not in `seen`. -/
theorem mem_map_id_uniqByAux (l : List Message) :
    ∀ (seen : List String) (i : String),
      i ∈ (uniqByAux seen l).map Message.id ↔
        (i ∈ l.map Message.id ∧ i ∉ seen) := by
  induction l with
  | nil => intro seen i; simp [uniqByAux]
  | cons m rest ih =>
      intro seen i
      by_cases h : m.id ∈ seen
      · simp only [uniqByAux, if_pos h, ih seen i, List.map_cons, List.mem_cons]
        constructor
        · rintro ⟨hi, hns⟩; exact ⟨Or.inr hi, hns⟩
        · rintro ⟨hi | hi, hns⟩
          · exact absurd (hi ▸ h) hns
          · exact ⟨hi, hns⟩
      · simp only [uniqByAux, if_neg h, List.map_cons, List.mem_cons,
          ih (m.id :: seen) i]
        by_cases hmi : i = m.id
        · subst hmi; tauto
        · tauto

/-- After `uniqByAux` the surviving ids contain no duplicates. -/
theorem nodup_map_id_uniqByAux (l : List Message) :
    ∀ seen : List String, ((uniqByAux seen l).map Message.id).Nodup := by
  induction l with
  | nil => intro seen; simp [uniqByAux]
  | cons m rest ih =>
      intro seen
      by_cases h : m.id ∈ seen
      · simpa [uniqByAux, h] using ih seen
      · simp only [uniqByAux, if_neg h, List.map_cons, List.nodup_cons]
        refine ⟨fun hc => ?_, ih (m.id :: seen)⟩
        have := (mem_map_id_uniqByAux rest (m.id :: seen) m.id).mp hc
        exact this.2 (List.mem_cons_self m.id seen)

/-- Membership in `uniqByAux` is: the id is not blocked by `seen`, and the
element is the first element of the input carrying its id. -/
theorem mem_uniqByAux_iff (l : List Message) :
    ∀ (seen : List String) (m : Message),
      m ∈ uniqByAux seen l ↔
        (m.id ∉ seen ∧ l.find? (fun x => x.id == m.id) = some m) := by
  induction l with
  | nil => intro seen m; simp [uniqByAux]
  | cons h t ih =>
      intro seen m
      by_cases hseen : h.id ∈ seen
      · rw [uniqByAux, if_pos hseen, ih seen m]
        by_cases hid : h.id = m.id
        · constructor
          · rintro ⟨hns, _⟩; exact absurd (hid ▸ hseen) hns
          · rintro ⟨hns, _⟩; exact absurd (hid ▸ hseen) hns
        · have : (h.id == m.id) = false := by simpa using hid
          rw [List.find?_cons, this]
      · rw [uniqByAux, if_neg hseen, List.mem_cons, ih (h.id :: seen) m]
        by_cases hid : h.id = m.id
        · have : (h.id == m.id) = true := by simpa using hid
          rw [List.find?_cons, this]
          constructor
          · rintro (rfl | ⟨hns, _⟩)
            · exact ⟨hid ▸ hseen, rfl⟩
            · exact absurd (List.mem_cons_self h.id seen) (hid ▸ hns)
          · rintro ⟨_, hsome⟩
            exact Or.inl (Option.some.injEq .. ▸ hsome.symm)
        · have : (h.id == m.id) = false := by simpa using hid
          rw [List.find?_cons, this]
          constructor
          · rintro (rfl | ⟨hns, hfind⟩)
            · exact absurd rfl hid
            · refine ⟨fun hc => hns (List.mem_cons_of_mem _ hc), hfind⟩
          · rintro ⟨hns, hfind⟩
            refine Or.inr ⟨?_, hfind⟩
            intro hc
            rcases List.mem_cons.mp hc with hc | hc
            · exact hid hc.symm
            · exact hns hc

/-- Membership in `uniqById l`: exactly the first occurrence of each id. -/
theorem mem_uniqById_iff (l : List Message) (m : Message) :
    m ∈ uniqById l ↔ l.find? (fun x => x.id == m.id) = some m := by
  simpa [uniqById] using mem_uniqByAux_iff l [] m

/-- With duplicate-free ids, membership plus id-equality pins the element. -/
theorem eq_of_mem_of_id_eq {l : List Message} {a b : Message}
    (hnd : (l.map Message.id).Nodup) (ha : a ∈ l) (hb : b ∈ l)
    (hid : a.id = b.id) : a = b :=
  List.inj_on_of_nodup_map hnd ha hb hid


/-- C1: with bots enabled, the Feed Compositor's merged `messages` list has
exactly one entry per `id` (its ids are duplicate-free and cover exactly the
ids of both sources), and when both sources contain a message with the same
`id`, the merged entry equals the real-source message (the real list is
concatenated first and underscore's `uniq` keeps the first occurrence). -/
theorem C1_merged_dedup_real_wins (realMs botMs : List Message)
    (hreal : (realMs.map Message.id).Nodup) :
    ((mergedMessages true realMs botMs).map Message.id).Nodup ∧
    (∀ i : String,
        i ∈ (mergedMessages true realMs botMs).map Message.id ↔
          (i ∈ realMs.map Message.id ∨ i ∈ botMs.map Message.id)) ∧
    (∀ m ∈ realMs, ∀ m2 ∈ mergedMessages true realMs botMs,
        m2.id = m.id → m2 = m) := by
  have hmerge : mergedMessages true realMs botMs = uniqById (realMs ++ botMs) := by
    simp [mergedMessages]
  refine ⟨?_, ?_, ?_⟩
  · rw [hmerge]
    simpa [uniqById] using nodup_map_id_uniqByAux (realMs ++ botMs) []
  · intro i
    rw [hmerge]
    simpa [uniqById, List.map_append] using
      mem_map_id_uniqByAux (realMs ++ botMs) [] i
  · intro m hm m2 hm2 hid
    rw [hmerge] at hm2
    have hfind := (mem_uniqById_iff _ m2).mp hm2
    have hpm : (m.id == m2.id) = true := by simpa using hid.symm
    have hsome : (realMs.find? (fun x => x.id == m2.id)).isSome :=
      List.find?_isSome.mpr ⟨m, hm, hpm⟩
    obtain ⟨y, hy⟩ := Option.isSome_iff_exists.mp hsome
    rw [List.find?_append, hy] at hfind
    have hym2 : y = m2 := by simpa using hfind
    subst hym2
    exact eq_of_mem_of_id_eq hreal (List.mem_of_find?_eq_some hy) hm hid

/-- Witness for C1 at a concrete collision: the real list `[msgReal]` and
the synthetic list `[msgSynth]` share the id `"m1"`. -/
theorem C1_merged_dedup_real_wins_witness :
    ((mergedMessages true [msgReal] [msgSynth]).map Message.id).Nodup ∧
    (∀ i : String,
        i ∈ (mergedMessages true [msgReal] [msgSynth]).map Message.id ↔
          (i ∈ [msgReal].map Message.id ∨ i ∈ [msgSynth].map Message.id)) ∧
    (∀ m ∈ [msgReal], ∀ m2 ∈ mergedMessages true [msgReal] [msgSynth],
        m2.id = m.id → m2 = m) :=
  C1_merged_dedup_real_wins [msgReal] [msgSynth] (by decide)

/-- C7: once the liveness flag is false (the cleanup that runs on unmount or
channel change), a resolving page query mutates nothing: neither the message
list, nor the cursor, nor the loading flag. -/
theorem C7_stale_result_discarded (result : Except Unit (List Message))
    (s : ConvState) : applyQueryResult false result s = s := by
  simp [applyQueryResult]

/-- C8: `handleUpdate` keeps the length, replaces exactly the entries whose
`id` matches the updated payload (position by position), and is the identity
when no entry matches. -/
theorem C8_handleUpdate_replaces_exactly (updated : Message)
    (prev : List Message) :
    (handleUpdate updated prev).length = prev.length ∧
    (∀ (i : Nat) (hi : i < prev.length)
        (hi2 : i < (handleUpdate updated prev).length),
      (handleUpdate updated prev).get ⟨i, hi2⟩ =
        if (prev.get ⟨i, hi⟩).id = updated.id then updated
        else prev.get ⟨i, hi⟩) ∧
    ((∀ m ∈ prev, m.id ≠ updated.id) → handleUpdate updated prev = prev) := by
  refine ⟨by simp [handleUpdate], ?_, ?_⟩
  · intro i hi hi2
    by_cases h : (prev.get ⟨i, hi⟩).id = updated.id <;>
      simp [handleUpdate, List.get_eq_getElem, List.getElem_map, h]
  · intro hno
    have : prev.map (fun m => if m.id ≠ updated.id then m else updated) =
        prev.map id :=
      List.map_congr_left (fun a ha => by simp [hno a ha])
    simpa [handleUpdate] using this

/-- Witness for C8: updating with `msgSynth`-keyed payload id `"zz"` touches
nothing in `[msgNew]`. -/
theorem C8_handleUpdate_replaces_exactly_witness :
    handleUpdate msgReal [msgNew] = [msgNew] :=
  (C8_handleUpdate_replaces_exactly msgReal [msgNew]).2.2 (by decide)

/-- C9: applying the same reaction-created event twice yields the same state
as applying it once (per the whole-list handler), and the reactor entry is
not added when an entry with the same `reactionId` already exists. -/
theorem C9_reaction_created_idempotent (prev : List Message)
    (ev : ReactionEvent) :
    handleReactionAdd ev (handleReactionAdd ev prev) =
      handleReactionAdd ev prev ∧
    (∀ m : Message, (∃ r ∈ m.reactions, r.reactionId = ev.reactionId) →
      mapFromUpdate m ev = m) := by
  have hdup : ∀ m : Message,
      (∃ r ∈ m.reactions, r.reactionId = ev.reactionId) →
        mapFromUpdate m ev = m := by
    rintro m ⟨r, hr, hrid⟩
    by_cases hid : m.id = ev.messageId
    · have hany : m.reactions.any (fun x => x.reactionId == ev.reactionId) := by
        exact List.any_eq_true.mpr ⟨r, hr, by simp [hrid]⟩
      simp [mapFromUpdate, hid, hany]
    · simp [mapFromUpdate, hid]
  have hidem : ∀ m : Message,
      mapFromUpdate (mapFromUpdate m ev) ev = mapFromUpdate m ev := by
    intro m
    by_cases hid : m.id = ev.messageId
    · by_cases hany : m.reactions.any (fun x => x.reactionId == ev.reactionId)
      · simp [mapFromUpdate, hid, hany]
      · simp [mapFromUpdate, hid, hany, List.any_append]
    · simp [mapFromUpdate, hid]
  refine ⟨?_, hdup⟩
  calc handleReactionAdd ev (handleReactionAdd ev prev)
      = prev.map (fun m => mapFromUpdate (mapFromUpdate m ev) ev) := by
        simp [handleReactionAdd, List.map_map, Function.comp]
    _ = prev.map (fun m => mapFromUpdate m ev) :=
        List.map_congr_left (fun a _ => hidem a)
    _ = handleReactionAdd ev prev := rfl

/-- Witness for C9: `msgWithReaction` already holds `evSample`'s reaction id,
so applying the event leaves it unchanged. -/
theorem C9_reaction_created_idempotent_witness :
    mapFromUpdate msgWithReaction evSample = msgWithReaction :=
  (C9_reaction_created_idempotent [msgWithReaction] evSample).2
    msgWithReaction
    ⟨{ reactionId := "r1", reactorId := "u2", type := "emoji" },
      by decide, rfl⟩

/-- C10: when no message in the merged feed carries the target id, both
`addReaction` and `removeReaction` route to the real Conversation View
Model's backend call, never to the Bot Feed Generator. -/
theorem C10_missing_target_routes_to_real (withBots : Bool)
    (cfg : BotConfig) (ms : List Message) (messageId : String)
    (habs : ∀ m ∈ ms, m.id ≠ messageId) :
    addReactionRoute withBots cfg ms messageId = Route.user ∧
    removeReactionRoute withBots cfg ms messageId = Route.user := by
  have hfind : ms.find? (fun m => m.id == messageId) = none :=
    List.find?_eq_none.mpr (fun x hx => by simpa using habs x hx)
  exact ⟨by simp [addReactionRoute, hfind], by simp [removeReactionRoute, hfind]⟩

/-- Witness for C10 at a concrete absent id. -/
theorem C10_missing_target_routes_to_real_witness :
    addReactionRoute true botCfgSample [msgReal] "zzz" = Route.user ∧
    removeReactionRoute true botCfgSample [msgReal] "zzz" = Route.user :=
  C10_missing_target_routes_to_real true botCfgSample [msgReal] "zzz"
    (by decide)

/-- The last element of a list is a member. -/
theorem mem_of_getLast?_eq_some {l : List Message} {m : Message}
    (h : l.getLast? = some m) : m ∈ l := by
  induction l with
  | nil => simp at h
  | cons a t ih =>
      cases t with
      | nil =>
          simp only [List.getLast?_singleton, Option.some.injEq] at h
          simp [h]
      | cons b t2 =>
          rw [List.getLast?_cons_cons] at h
          exact List.mem_cons_of_mem a (ih h)

/-- In a newest-first list, the last element has minimal `created_at`. -/
theorem getLast_min_of_newestFirst :
    ∀ (l : List Message), newestFirst l → ∀ m, l.getLast? = some m →
      ∀ x ∈ l, m.created_at ≤ x.created_at := by
  intro l
  induction l with
  | nil => intro _ m h; simp at h
  | cons a t ih =>
      intro hnf m hlast x hx
      cases t with
      | nil =>
          simp only [List.getLast?_singleton, Option.some.injEq] at hlast
          rcases List.mem_singleton.mp hx with rfl
          rw [hlast]
      | cons b t2 =>
          rw [List.getLast?_cons_cons] at hlast
          have hnf2 : newestFirst (b :: t2) := (List.pairwise_cons.mp hnf).2
          rcases List.mem_cons.mp hx with rfl | hx2
          · exact (List.pairwise_cons.mp hnf).1 m
              (mem_of_getLast?_eq_some hlast)
          · exact ih hnf2 m hlast x hx2

/-- C2 (code evaluation at the failing input): when the backward page query
rejects right after mount (state: empty list, null cursor, loading flag
true), the code leaves the whole state untouched — the message list and
cursor are indeed unchanged, but `isLoading` stays `true` instead of being
cleared to `false`, because the `await` throws past the only
`setIsLoading(false)` call and there is no catch. -/
theorem C2_failed_query_keeps_loading_true :
    applyQueryResult true (Except.error ()) (loadStart initialConv) =
      loadStart initialConv ∧
    (applyQueryResult true (Except.error ())
        (loadStart initialConv)).isLoading = true := by
  decide

/-- C6: on a successful page query the fetched messages are merged into the
existing list with duplicate suppression by `id` (the exposed ids are
duplicate-free and are exactly the fetched ids plus the previous ids), the
cursor becomes the last fetched message's id — which, as pages arrive
newest-first, is the oldest fetched message — and an empty page sets the
cursor to null. -/
theorem C6_success_sets_cursor_and_merges (next : List Message)
    (s : ConvState) (hsort : newestFirst next) :
    ((applyQueryResult true (Except.ok next) s).messages.map
        Message.id).Nodup ∧
    (∀ i : String,
        i ∈ (applyQueryResult true (Except.ok next) s).messages.map
            Message.id ↔
          (i ∈ next.map Message.id ∨ i ∈ s.messages.map Message.id)) ∧
    (next = [] →
        (applyQueryResult true (Except.ok next) s).pageCursor = none) ∧
    (∀ last, next.getLast? = some last →
        (applyQueryResult true (Except.ok next) s).pageCursor =
            some last.id ∧
          last ∈ next ∧
          ∀ x ∈ next, last.created_at ≤ x.created_at) := by
  refine ⟨?_, ?_, ?_, ?_⟩
  · simp only [applyQueryResult, if_pos rfl]
    simpa [uniqById] using nodup_map_id_uniqByAux (next ++ s.messages) []
  · intro i
    simp only [applyQueryResult, if_pos rfl]
    simpa [uniqById, List.map_append] using
      mem_map_id_uniqByAux (next ++ s.messages) [] i
  · intro hnil
    simp [applyQueryResult, hnil]
  · intro last hlast
    refine ⟨by simp [applyQueryResult, hlast], mem_of_getLast?_eq_some hlast,
      getLast_min_of_newestFirst next hsort last hlast⟩

/-- Witness for C6: the backwards page `[msgNew, msgOld]` (created_at 2
then 1) merged into the freshly loading state. -/
theorem C6_success_sets_cursor_and_merges_witness :
    ((applyQueryResult true (Except.ok [msgNew, msgOld])
        (loadStart initialConv)).messages.map Message.id).Nodup ∧
    (∀ i : String,
        i ∈ (applyQueryResult true (Except.ok [msgNew, msgOld])
            (loadStart initialConv)).messages.map Message.id ↔
          (i ∈ [msgNew, msgOld].map Message.id ∨
            i ∈ (loadStart initialConv).messages.map Message.id)) ∧
    ([msgNew, msgOld] = ([] : List Message) →
        (applyQueryResult true (Except.ok [msgNew, msgOld])
            (loadStart initialConv)).pageCursor = none) ∧
    (∀ last, [msgNew, msgOld].getLast? = some last →
        (applyQueryResult true (Except.ok [msgNew, msgOld])
            (loadStart initialConv)).pageCursor = some last.id ∧
          last ∈ [msgNew, msgOld] ∧
          ∀ x ∈ [msgNew, msgOld], last.created_at ≤ x.created_at) :=
  C6_success_sets_cursor_and_merges [msgNew, msgOld] (loadStart initialConv)
    (by decide)

/-- Dedup keeps the head: the first element is never a duplicate. -/
theorem head?_uniqById (l : List Message) : (uniqById l).head? = l.head? := by
  cases l with
  | nil => rfl
  | cons m rest => simp [uniqById, uniqByAux]

/-- C3 counterexample: the initial backwards page delivers `[msgNew, msgOld]`
(newest first: created_at 2, then 1).  The anchor the compositor hands to
the Bot Feed Generator — `messages?.[0]?.created_at` — is then `some 2`,
the NEWEST loaded time, while the earliest loaded real message (`msgOld`,
still in the exposed list) was created at 1. -/
theorem C3_anchor_counterexample :
    newestFirst [msgNew, msgOld] ∧
    botAnchor (applyQueryResult true (Except.ok [msgNew, msgOld])
        (loadStart initialConv)).messages = some 2 ∧
    msgOld ∈ (applyQueryResult true (Except.ok [msgNew, msgOld])
        (loadStart initialConv)).messages ∧
    msgOld.created_at = 1 := by
  decide

/-- C3 (amended): the anchor supplied to the Bot Feed Generator is the
`created_at` of the FIRST message of the exposed list; after the initial
page load that is the newest fetched message (backwards pages arrive newest
first), not the earliest loaded one.  When no real message is loaded the
anchor is absent and the (spec-modelled) generator emits no synthetic
messages. -/
theorem C3_amended_anchor_is_first (page : List Message)
    (hsort : newestFirst page) :
    (∀ h0, page.head? = some h0 →
        botAnchor (applyQueryResult true (Except.ok page)
            (loadStart initialConv)).messages = some h0.created_at ∧
          ∀ x ∈ page, x.created_at ≤ h0.created_at) ∧
    botAnchor ([] : List Message) = none ∧
    (∀ (cfg : BotConfig) (script : List BotScriptEntry) (now : Nat),
        botFeed cfg script (botAnchor ([] : List Message)) now = []) := by
  refine ⟨?_, rfl, fun cfg script now => rfl⟩
  intro h0 hh0
  cases page with
  | nil => simp at hh0
  | cons a t =>
      have ha : a = h0 := by simpa using hh0
      subst ha
      constructor
      · show ((uniqById ((a :: t) ++ [])).head?.map Message.created_at) = _
        rw [head?_uniqById]
        simp
      · intro x hx
        rcases List.mem_cons.mp hx with rfl | hx2
        · exact Nat.le_refl _
        · exact (List.pairwise_cons.mp hsort).1 x hx2

/-- Witness for C3 (amended) at the concrete page `[msgNew, msgOld]`. -/
theorem C3_amended_anchor_is_first_witness :
    (∀ h0, [msgNew, msgOld].head? = some h0 →
        botAnchor (applyQueryResult true (Except.ok [msgNew, msgOld])
            (loadStart initialConv)).messages = some h0.created_at ∧
          ∀ x ∈ [msgNew, msgOld], x.created_at ≤ h0.created_at) ∧
    botAnchor ([] : List Message) = none ∧
    (∀ (cfg : BotConfig) (script : List BotScriptEntry) (now : Nat),
        botFeed cfg script (botAnchor ([] : List Message)) now = []) :=
  C3_amended_anchor_is_first [msgNew, msgOld] (by decide)

/-- C5 counterexample: a single backwards page `[msgNew, msgOld]`
(created_at 2 then 1) reaches the exposed merged feed unsorted, so the feed
is NOT in non-decreasing `created_at` order. -/
theorem C5_order_counterexample :
    newestFirst [msgNew, msgOld] ∧
    ¬ chronological (mergedMessages false
        (applyQueryResult true (Except.ok [msgNew, msgOld])
          (loadStart initialConv)).messages []) := by
  decide

/-- C5 (amended): no sort is applied anywhere on the path from the page
query to the exposed merged feed; the feed preserves the backend's delivery
order, so after the initial page load it is in non-INCREASING `created_at`
order (newest first) — the claimed non-decreasing order does not hold. -/
theorem C5_amended_feed_preserves_delivery_order (page : List Message)
    (hsort : newestFirst page) :
    newestFirst (mergedMessages false
      (applyQueryResult true (Except.ok page)
        (loadStart initialConv)).messages []) := by
  have huniq : ∀ l : List Message, (uniqById l).Sublist l := fun l =>
    uniqByAux_sublist l []
  have hfeed : mergedMessages false
      (applyQueryResult true (Except.ok page)
        (loadStart initialConv)).messages [] =
      uniqById (uniqById (page ++ []) ++ []) := rfl
  rw [hfeed, List.append_nil, List.append_nil]
  exact List.Pairwise.sublist ((huniq _).trans (huniq _)) hsort

/-- Witness for C5 (amended) at the concrete page `[msgNew, msgOld]`. -/
theorem C5_amended_feed_preserves_delivery_order_witness :
    newestFirst (mergedMessages false
      (applyQueryResult true (Except.ok [msgNew, msgOld])
        (loadStart initialConv)).messages []) :=
  C5_amended_feed_preserves_delivery_order [msgNew, msgOld] (by decide)

/-- C4 counterexample: `msgBotAuthored` has a recognized synthetic-bot
author (`"bot-ann"` starts with the configured prefix `"bot-"`) but lives on
channel `"general"`.  With bots enabled, `addReaction` routes it to the Bot
Feed Generator, yet `removeReaction` routes the very same message to the
real backend, because `removeReaction` tests `conversation_id` against the
bot channel name instead of inspecting the author. -/
theorem C4_routing_counterexample :
    strStartsWith msgBotAuthored.created_by botCfgSample.usernamePrefix =
      true ∧
    addReactionRoute true botCfgSample [msgBotAuthored] "b1" = Route.bot ∧
    removeReactionRoute true botCfgSample [msgBotAuthored] "b1" =
      Route.user := by
  decide

/-- C4 (amended): the two actions use different provenance rules.  For a
message present in the merged feed (ids duplicate-free), `addReaction`
routes to the Bot Feed Generator exactly when bots are enabled and the
target's author starts with the configured bot username prefix, while
`removeReaction` routes to the Bot Feed Generator exactly when bots are
enabled and the target's `conversation_id` equals the configured bot
channel name; in every other case the action goes to the real Conversation
View Model's backend call. -/
theorem C4_amended_routing (withBots : Bool) (cfg : BotConfig)
    (ms : List Message) (m : Message)
    (hnd : (ms.map Message.id).Nodup) (hm : m ∈ ms) :
    (addReactionRoute withBots cfg ms m.id = Route.bot ↔
      (withBots = true ∧
        strStartsWith m.created_by cfg.usernamePrefix = true)) ∧
    (removeReactionRoute withBots cfg ms m.id = Route.bot ↔
      (withBots = true ∧ m.conversation_id = cfg.channelName)) := by
  have hfind : ms.find? (fun x => x.id == m.id) = some m := by
    have hsome : (ms.find? (fun x => x.id == m.id)).isSome :=
      List.find?_isSome.mpr ⟨m, hm, by simp⟩
    obtain ⟨y, hy⟩ := Option.isSome_iff_exists.mp hsome
    have hyid : y.id = m.id := by simpa using List.find?_some hy
    have hym : y = m :=
      eq_of_mem_of_id_eq hnd (List.mem_of_find?_eq_some hy) hm hyid
    rw [hy, hym]
  constructor
  · cases hw : withBots <;>
      cases hs : strStartsWith m.created_by cfg.usernamePrefix <;>
        simp [addReactionRoute, hfind, hs]
  · cases hw : withBots
    · simp [removeReactionRoute, hfind]
    · cases he : (m.conversation_id == cfg.channelName)
      · have hne : m.conversation_id ≠ cfg.channelName := by
          intro h; rw [h] at he; simp at he
        simp [removeReactionRoute, hfind, he, hne]
      · have heq : m.conversation_id = cfg.channelName := by simpa using he
        simp [removeReactionRoute, hfind, he, heq]

/-- Witness for C4 (amended) at `msgBotAuthored` in a singleton feed. -/
theorem C4_amended_routing_witness :
    (addReactionRoute true botCfgSample [msgBotAuthored]
        msgBotAuthored.id = Route.bot ↔
      (true = true ∧
        strStartsWith msgBotAuthored.created_by
          botCfgSample.usernamePrefix = true)) ∧
    (removeReactionRoute true botCfgSample [msgBotAuthored]
        msgBotAuthored.id = Route.bot ↔
      (true = true ∧
        msgBotAuthored.conversation_id = botCfgSample.channelName)) :=
  C4_amended_routing true botCfgSample [msgBotAuthored] msgBotAuthored
    (by decide) (by decide)
